import Mathlib

/-!
Verification of the espnprojections package: a shallow embedding of
`espnprojections/espnapi.py` and `espnprojections/watson.py` together with
theorems about the properties of the parsing and standardization pipeline.

Modelling conventions:
* Python dicts whose keys come from JSON are modelled as association lists;
  lookup is first-match, and insertion (`dictInsert`) replaces in place or
  appends, mirroring CPython dict semantics (insertion order preserved,
  later assignment to an existing key overwrites the value in place).
* Python exceptions are modelled with `Except PyErr`; `KeyError`,
  `ValueError` and `TypeError` are distinguished because
  `weekly_projections` catches only `KeyError`.
* JSON scalar values that flow through unchanged are modelled by `JVal`.
  Python `float(v)` succeeds exactly on numeric values, so `JVal.num q`
  stands for any value on which `float` succeeds (returning `q`, with ℚ in
  place of IEEE floats: no claim here depends on rounding) and `JVal.str s`
  stands for a value on which `float` raises `ValueError`.
* A possibly-missing dict entry is an `Option` field of a structure.
-/

namespace EspnProjections

/-- Python exception kinds relevant to the embedded code. -/
inductive PyErr where
  | keyError
  | valueError
  | typeError
deriving DecidableEq, Repr

/-- JSON scalar values passed through the parser unchanged: `num q` is a
value on which Python `float` succeeds with result `q`; `str s` is a value
on which `float` raises `ValueError`. -/
inductive JVal where
  | num (q : ℚ)
  | str (s : String)
deriving DecidableEq, Repr

instance {ε : Type u} {α : Type v} [DecidableEq ε] [DecidableEq α] :
    DecidableEq (Except ε α) := fun x y =>
  match x, y with
  | .ok a, .ok b =>
    if h : a = b then isTrue (by rw [h])
    else isFalse (by intro hc; injection hc; contradiction)
  | .error a, .error b =>
    if h : a = b then isTrue (by rw [h])
    else isFalse (by intro hc; injection hc; contradiction)
  | .ok _, .error _ => isFalse (by intro hc; cases hc)
  | .error _, .ok _ => isFalse (by intro hc; cases hc)

/-- Python `float(v)` on a `JVal`. -/
def pyFloat : JVal → Except PyErr ℚ
  | .num q => .ok q
  | .str _ => .error .valueError

/-- A key of a player's stat-code dict: JSON delivers strings but the code
defensively applies `str(k)`, so integer keys are representable too. -/
inductive StatKey where
  | ofInt (n : Int)
  | ofString (s : String)
deriving DecidableEq, Repr

/-- Python `str(k)` applied to a stat key. -/
def pyStr : StatKey → String
  | .ofInt n => toString n
  | .ofString s => s

/-- First-match lookup in an association list (Python `d.get(k)` /
`k in d`). -/
def dget [BEq κ] (l : List (κ × α)) (k : κ) : Option α :=
  (l.find? (fun kv => kv.1 == k)).map (fun kv => kv.2)

/-- Python dict assignment `d[k] = v`: overwrite in place if the key is
present, else append. -/
def dictInsert [BEq κ] (l : List (κ × α)) (k : κ) (v : α) : List (κ × α) :=
  if (l.find? (fun kv => kv.1 == k)).isSome then
    l.map (fun kv => if kv.1 == k then (k, v) else kv)
  else
    l ++ [(k, v)]

/-- One entry of a player's `stats` array (`RawStatRecord`).  Every field
is optional because the corresponding dict key may be absent. -/
structure StatRecord where
  seasonId : Option Int := none
  scoringPeriodId : Option Int := none
  statSourceId : Option Int := none
  statSplitTypeId : Option Int := none
  appliedTotal : Option JVal := none
  stats : Option (List (StatKey × JVal)) := none
deriving DecidableEq, Repr

/-- A `player` object of the provider response.  `id` and `fullName` flow
through unchanged, so they are `JVal`; the two numeric ids are read as
ints by the code. -/
structure PlayerEntry where
  id : Option JVal := none
  fullName : Option JVal := none
  proTeamId : Option Int := none
  defaultPositionId : Option Int := none
  stats : Option (List StatRecord) := none
deriving DecidableEq, Repr

/-- An output row of `Parser.projections` / `Parser.weekly_projections`.
Each field models one dict key; `none` means the key is absent from the
row's dict.  `source_player_projection = some none` models the key being
present with value `None`.  `statFields` holds the merged output of
`_parse_stats` (its keys are disjoint from the fixed keys, so the merge
`dict(**p, **parsed)` is represented by this separate field). -/
structure FlatRow where
  source_player_id : Option JVal := none
  source_player_name : Option JVal := none
  source_team_id : Option Int := none
  source_team_code : Option (Option String) := none
  source_player_position : Option (Option String) := none
  source_player_projection : Option (Option JVal) := none
  statFields : List (String × ℚ) := []
deriving DecidableEq, Repr

namespace Parser

/-- Table `Parser.POSITION_MAP` from espnapi.py. -/
def POSITION_MAP : List (Int × String) :=
  [(1, "QB"), (2, "RB"), (3, "WR"), (4, "TE"), (5, "K"), (16, "DST")]

/-- Table `Parser.STAT_MAP` from espnapi.py. -/
def STAT_MAP : List (String × String) :=
  [("0", "pass_att"), ("1", "pass_cmp"), ("3", "pass_yds"), ("4", "pass_td"),
   ("19", "pass_tpc"), ("20", "pass_int"), ("23", "rush_att"),
   ("24", "rush_yds"), ("25", "rush_td"), ("26", "rush_tpc"),
   ("53", "rec_rec"), ("42", "rec_yds"), ("43", "rec_td"), ("44", "rec_tpc"),
   ("58", "rec_tar"), ("72", "fum_lost"),
   ("74", "madeFieldGoalsFrom50Plus"), ("77", "madeFieldGoalsFrom40To49"),
   ("80", "madeFieldGoalsFromUnder40"), ("85", "missedFieldGoals"),
   ("86", "madeExtraPoints"), ("88", "missedExtraPoints"),
   ("89", "defensive0PointsAllowed"), ("90", "defensive1To6PointsAllowed"),
   ("91", "defensive7To13PointsAllowed"),
   ("92", "defensive14To17PointsAllowed"),
   ("93", "defensiveBlockedKickForTouchdowns"),
   ("95", "defensiveInterceptions"), ("96", "defensiveFumbles"),
   ("97", "defensiveBlockedKicks"), ("98", "defensiveSafeties"),
   ("99", "defensiveSacks"), ("101", "kickoffReturnTouchdown"),
   ("102", "puntReturnTouchdown"), ("103", "fumbleReturnTouchdown"),
   ("104", "interceptionReturnTouchdown"),
   ("123", "defensive28To34PointsAllowed"),
   ("124", "defensive35To45PointsAllowed"),
   ("129", "defensive100To199YardsAllowed"),
   ("130", "defensive200To299YardsAllowed"),
   ("132", "defensive350To399YardsAllowed"),
   ("133", "defensive400To449YardsAllowed"),
   ("134", "defensive450To499YardsAllowed"),
   ("135", "defensive500To549YardsAllowed"),
   ("136", "defensiveOver550YardsAllowed")]

/-- Table `Parser.TEAM_MAP` from espnapi.py, in source (insertion) order. -/
def TEAM_MAP : List (String × Int) :=
  [("ARI", 22), ("ATL", 1), ("BAL", 33), ("BUF", 2), ("CAR", 29),
   ("CHI", 3), ("CIN", 4), ("CLE", 5), ("DAL", 6), ("DEN", 7), ("DET", 8),
   ("GB", 9), ("HOU", 34), ("IND", 11), ("JAC", 30), ("JAX", 30),
   ("KC", 12), ("LAC", 24), ("LA", 14), ("LAR", 14), ("MIA", 15),
   ("MIN", 16), ("NE", 17), ("NO", 18), ("NYG", 19), ("NYJ", 20),
   ("OAK", 13), ("PHI", 21), ("PIT", 23), ("SEA", 26), ("SF", 25),
   ("TB", 27), ("TEN", 10), ("WAS", 28), ("WSH", 28), ("FA", 0)]

/-- Table `Parser.TEAM_ID_MAP`, the dict comprehension over `TEAM_MAP`: a dict
comprehension over `TEAM_MAP` in insertion order, so a later abbreviation
with the same id overwrites an earlier one. -/
def TEAM_ID_MAP : List (Int × String) :=
  TEAM_MAP.foldl (fun acc kv => dictInsert acc kv.2 kv.1) []

/-- The four key lookups `item[k] for k in mapping` performed by
`Parser._find_projection` on one record; a missing key raises `KeyError`. -/
def lookupKeys (r : StatRecord) : Except PyErr (Int × Int × Int × Int) :=
  match r.seasonId, r.scoringPeriodId, r.statSourceId, r.statSplitTypeId with
  | some a, some b, some c, some d => .ok (a, b, c, d)
  | _, _, _, _ => .error .keyError

/-- Method `Parser._find_projection`: linear scan returning the first record whose
four key fields equal `(season, week, 1, 0)`; falls off the loop with
`None` when no record matches. -/
def find_projection (season week : Int) : List StatRecord → Except PyErr (Option StatRecord)
  | [] => .ok none
  | item :: rest => do
      let ks ← lookupKeys item
      if ks = (season, week, 1, 0) then
        pure (some item)
      else
        find_projection season week rest

/-- One item of the dict comprehension in `Parser._parse_stats`: the filter
`str(k) in STAT_MAP` is evaluated before `float(v)`, so unknown codes never
reach the coercion; `float` on a non-numeric value raises `ValueError`. -/
def parse_stats_step (acc : List (String × ℚ)) (kv : StatKey × JVal) :
    Except PyErr (List (String × ℚ)) :=
  match dget STAT_MAP (pyStr kv.1) with
  | some name => do
      let q ← pyFloat kv.2
      pure (dictInsert acc name q)
  | none => pure acc

/-- Method `Parser._parse_stats`: dict comprehension
`{STAT_MAP.get(str(k)): float(v) for k, v in stat.items() if str(k) in STAT_MAP}`. -/
def parse_stats (stat : List (StatKey × JVal)) : Except PyErr (List (String × ℚ)) :=
  stat.foldlM parse_stats_step []

/-- Python truthiness of the optional `team_code` argument (`if team_code:`):
`None` and the empty string are falsy. -/
def pyTruthyStr : Option String → Bool
  | some s => s ≠ ""
  | none => false

/-- Method `Parser.espn_team(team_code=None, team_id=None)`: if `team_code` is
truthy return `TEAM_MAP.get(team_code)` (an id, `Sum.inl`), otherwise
return `TEAM_ID_MAP.get(int(team_id))` (a code, `Sum.inr`); `int(None)`
raises `TypeError`. -/
def espn_team (team_code : Option String) (team_id : Option Int) :
    Except PyErr (Option (Int ⊕ String)) :=
  if pyTruthyStr team_code then
    .ok ((dget TEAM_MAP (team_code.getD "")).map Sum.inl)
  else
    match team_id with
    | none => .error .typeError
    | some i => .ok ((dget TEAM_ID_MAP i).map Sum.inr)

/-- The identity part of a row: the dict comprehension over
`top_level_keys` shared by both parse variants (`id -> source_player_id`,
`fullName -> source_player_name`, `proTeamId -> source_team_id`); keys
absent from the player dict are simply omitted.  The weekly variant also
copies `defaultPositionId` into `source_player_position`, but that value is
unconditionally overwritten (or a `KeyError` raised) on the next line, so
only the final value appears in the row. -/
def baseRow (player : PlayerEntry) : FlatRow :=
  { source_player_id := player.id
    source_player_name := player.fullName
    source_team_id := player.proTeamId }

/-- Assignment `p["source_team_code"] = self.espn_team(team_id=p.get("source_team_id", 0))`:
a `TEAM_ID_MAP.get` on the team id, defaulting the missing id to `0`. -/
def teamCodeField (player : PlayerEntry) : Option String :=
  dget TEAM_ID_MAP (player.proTeamId.getD 0)

/-- One loop iteration of `Parser.projections` (the season-total variant):
builds the identity row, sets the team code, sets
`POSITION_MAP.get(int(player['defaultPositionId']))` (a `KeyError` when the
key is absent; no default, so an unknown id yields `None`), then looks up
the stat record; on a match the applied total and parsed stats are merged
in, otherwise the projection is explicitly `None`.  No exception is
caught. -/
def seasonPlayerRow (season week : Int) (player : PlayerEntry) :
    Except PyErr FlatRow := do
  let p := baseRow player
  let p := { p with source_team_code := some (teamCodeField player) }
  let pid ← match player.defaultPositionId with
    | none => Except.error PyErr.keyError
    | some pid => pure pid
  let p := { p with source_player_position := some (dget POSITION_MAP pid) }
  let stats ← match player.stats with
    | none => Except.error PyErr.keyError
    | some s => pure s
  let stat ← find_projection season week stats
  match stat with
  | some st => do
      let total ← match st.appliedTotal with
        | none => Except.error PyErr.keyError
        | some t => pure t
      let p := { p with source_player_projection := some (some total) }
      let sd ← match st.stats with
        | none => Except.error PyErr.keyError
        | some sd => pure sd
      let parsed ← parse_stats sd
      pure { p with statFields := parsed }
  | none => pure { p with source_player_projection := some none }

/-- Method `Parser.projections`: one row appended per player; any exception
propagates and aborts the whole call.  The `content["players"]` wrapper and
the `item["player"]` projection are modelled by taking the list of player
objects directly. -/
def projections (season week : Int) (players : List PlayerEntry) :
    Except PyErr (List FlatRow) :=
  players.mapM (seasonPlayerRow season week)

/-- The body of the `try:` block of `Parser.weekly_projections`, after the
row `p` (identity + team code + position) has been built.  `p` is mutated
in place by the Python code, so an error carries the row as mutated so far:
the `except KeyError:` handler appends exactly that row. -/
def weeklyStatStep (season week : Int) (p : FlatRow) (player : PlayerEntry) :
    Except (PyErr × FlatRow) FlatRow :=
  match player.stats with
  | none => .error (.keyError, p)
  | some stats =>
    match find_projection season week stats with
    | .error e => .error (e, p)
    | .ok none => .ok { p with source_player_projection := some none }
    | .ok (some st) =>
      match st.appliedTotal with
      | none => .error (.keyError, p)
      | some total =>
        let p2 := { p with source_player_projection := some (some total) }
        match st.stats with
        | none => .error (.keyError, p2)
        | some sd =>
          match parse_stats sd with
          | .error e => .error (e, p2)
          | .ok parsed => .ok { p2 with statFields := parsed }

/-- One loop iteration of `Parser.weekly_projections`: identity row, team
code, then `POSITION_MAP.get(p["source_player_position"], "UNK")` — the
subscript raises `KeyError` (uncaught, it is outside the `try`) when
`defaultPositionId` was absent, and unknown ids default to `"UNK"`.  The
stat-lookup block runs under `try ... except KeyError`, which appends the
row as built so far; any other exception (e.g. `ValueError` from `float`)
propagates. -/
def weeklyPlayerRow (season week : Int) (player : PlayerEntry) :
    Except PyErr FlatRow := do
  let p := baseRow player
  let p := { p with source_team_code := some (teamCodeField player) }
  let pid ← match player.defaultPositionId with
    | none => Except.error PyErr.keyError
    | some pid => pure pid
  let p := { p with
    source_player_position := some (some ((dget POSITION_MAP pid).getD "UNK")) }
  match weeklyStatStep season week p player with
  | .ok r => pure r
  | .error (.keyError, pAt) => pure pAt
  | .error (e, _) => Except.error e

/-- Method `Parser.weekly_projections`: one row appended per player (including via
the `except KeyError` branch); uncaught exceptions abort the call.  The
final `pd.DataFrame(proj)` wrapper is modelled as the list of rows. -/
def weekly_projections (season week : Int) (players : List PlayerEntry) :
    Except PyErr (List FlatRow) :=
  players.mapM (weeklyPlayerRow season week)

end Parser

/-! ## DataFrame model

`process_raw` operates on whole columns, so a DataFrame is modelled as the
ordered list of its columns, each a name paired with its cells. -/

/-- A DataFrame: ordered list of named columns. -/
abbrev DF (α : Type) : Type := List (String × List α)

/-- Pandas `df.loc[:, wanted]`: select the listed columns in the listed order; a
label absent from the frame raises `KeyError` (pandas missing-label
behaviour). -/
def df_loc_cols (wanted : List String) (df : DF α) :
    Except PyErr (DF α) :=
  wanted.mapM (fun w =>
    match df.find? (fun col => col.1 == w) with
    | some col => .ok col
    | none => .error .keyError)

/-- Modelled from the spec: `ProjectionSource.remap_columns` from the
external `nflprojections` base class is not part of this repository.  Per
the spec, column-mapping tables are explicit and renaming is per the
adapter's column-mapping table, so each column name is mapped through the
table, names without an entry passing through unchanged. -/
def remap_columns (mapping : List (String × String)) (cols : List String) :
    List String :=
  cols.map (fun c => (dget mapping c).getD c)

namespace ESPNProjections

/-- Table `ESPNProjections.COLUMN_MAPPING` from espnapi.py. -/
def COLUMN_MAPPING : List (String × String) :=
  [("source_player_position", "pos"),
   ("source_player_projection", "proj"),
   ("source_team_code", "team"),
   ("source_player_name", "plyr")]

/-- The `wanted` list of `ESPNProjections.process_raw`. -/
def wanted : List String :=
  ["source_player_position", "source_player_name", "source_player_id",
   "source_team_code", "source_player_projection"]

/-- Method `ESPNProjections.process_raw`: `df = df.loc[:, wanted]` then
`df.columns = self.remap_columns(df.columns)`. -/
def process_raw (df : DF α) : Except PyErr (DF α) := do
  let sel ← df_loc_cols wanted df
  pure (List.zip (remap_columns COLUMN_MAPPING (sel.map (fun c => c.1)))
                 (sel.map (fun c => c.2)))

end ESPNProjections

namespace WatsonProjections

/-- Table `WatsonProjections.COLUMN_MAPPING` from watson.py. -/
def COLUMN_MAPPING : List (String × String) :=
  [("EVENT_WEEK", "week"), ("OPPONENT_NAME", "opp"), ("EVENT_YEAR", "season"),
   ("FULL_NAME", "plyr"), ("POSITION", "pos"), ("TEAM", "team"),
   ("OUTSIDE_PROJECTION", "outside_projection"),
   ("SCORE_PROJECTION", "proj"), ("SCORE_DISTRIBUTION", "score_distribution"),
   ("LOW_SCORE", "low_score"), ("HIGH_SCORE", "high_score"),
   ("SIMULATION_PROJECTION", "simulation_projection")]

/-- List `wanted = list(self.COLUMN_MAPPING.values())` in `process_raw`. -/
def wanted : List String := COLUMN_MAPPING.map (fun kv => kv.2)

/-- The first line of `WatsonProjections.process_raw`:
`df.columns = self.remap_columns(df.columns)`. -/
def renamedDF (df : DF α) : DF α :=
  List.zip (remap_columns COLUMN_MAPPING (df.map (fun c => c.1)))
           (df.map (fun c => c.2))

/-- Method `WatsonProjections.process_raw`: rename first, then select
`df.loc[:, wanted]`. -/
def process_raw (df : DF α) : Except PyErr (DF α) :=
  df_loc_cols wanted (renamedDF df)

end WatsonProjections

/-! ## Standardizer model

`standardize` runs three column passes via `df.assign`; each pass is
elementwise over the column, so a table is modelled as a list of rows
carrying the columns the passes touch.  The external collaborators
(`standardize_teams`, `standardize_positions`,
`nflnames.standardize_player_name`) are injected as function parameters. -/

/-- pandas `Series.str.lower()` on one cell: lowercasing each character
(the cells are ASCII team codes). -/
def strLower (s : String) : String := ⟨s.data.map Char.toLower⟩

/-- pandas `Series.str.replace('WSH', 'WAS')` on one cell: substring
replacement; a team-code cell is a 2–3 letter code, so the only possible
occurrence of `"WSH"` is the whole cell, modelled as the whole-string
rewrite. -/
def replaceWSH (s : String) : String := if s = "WSH" then "WAS" else s

/-- A row of the canonical-schema table handled by
`ESPNProjections.standardize` (`team`, `pos`, `plyr`). -/
structure SRow where
  team : String
  pos : String
  plyr : String
deriving DecidableEq, Repr

/-- A row of the table handled by `WatsonProjections.standardize`, which
also carries an `opp` column. -/
structure WRow where
  team : String
  opp : String
  pos : String
  plyr : String
deriving DecidableEq, Repr

namespace ESPNProjections

/-- Method `ESPNProjections.standardize_players`: the Series produced by
`np.where(df.pos == 'DST', df.team.str.lower() + ' defense',
df.plyr.apply(nflnames.standardize_player_name))`, elementwise over the
rows. -/
def standardize_players (stdName : String → String) (df : List SRow) :
    List String :=
  df.map (fun r =>
    if r.pos == "DST" then strLower r.team ++ " defense" else stdName r.plyr)

/-- Method `ESPNProjections.standardize`: three `df.assign` passes — team
canonicalization after the `str.replace('WSH', 'WAS')` pre-aliasing,
position canonicalization, then the player-name pass which reads the
already-updated `team`/`pos` columns. -/
def standardize (stdTeam stdPos stdName : String → String)
    (df : List SRow) : List SRow :=
  let df1 := df.map (fun r => { r with team := stdTeam (replaceWSH r.team) })
  let df2 := df1.map (fun r => { r with pos := stdPos r.pos })
  (df2.zip (standardize_players stdName df2)).map
    (fun rn => { rn.1 with plyr := rn.2 })

end ESPNProjections

namespace WatsonProjections

/-- Method `WatsonProjections.standardize_players`: identical `np.where` branch to
the ESPN adapter's, elementwise over the rows. -/
def standardize_players (stdName : String → String) (df : List WRow) :
    List String :=
  df.map (fun r =>
    if r.pos == "DST" then strLower r.team ++ " defense" else stdName r.plyr)

/-- Method `WatsonProjections.standardize`: team and opponent canonicalization (no
pre-aliasing), position canonicalization, then the player-name pass. -/
def standardize (stdTeam stdPos stdName : String → String)
    (df : List WRow) : List WRow :=
  let df1 := df.map (fun r => { r with team := stdTeam r.team, opp := stdTeam r.opp })
  let df2 := df1.map (fun r => { r with pos := stdPos r.pos })
  (df2.zip (standardize_players stdName df2)).map
    (fun rn => { rn.1 with plyr := rn.2 })

end WatsonProjections

/-! ## Spec-side predicates and helper lemmas -/

open Parser

/-- A stat record carries all four key fields used by
`_find_projection`. -/
def hasAllKeys (r : StatRecord) : Prop :=
  r.seasonId.isSome ∧ r.scoringPeriodId.isSome ∧
  r.statSourceId.isSome ∧ r.statSplitTypeId.isSome

instance (r : StatRecord) : Decidable (hasAllKeys r) := by
  unfold hasAllKeys; infer_instance

/-- A record matches the target tuple `(season, week, source 1, split 0)`:
all four key fields are present and equal to the target values. -/
def isTargetRecord (season week : Int) (r : StatRecord) : Bool :=
  r.seasonId == some season && r.scoringPeriodId == some week &&
  r.statSourceId == some 1 && r.statSplitTypeId == some 0

lemma lookupKeys_of_hasAllKeys (r : StatRecord) (h : hasAllKeys r) :
    lookupKeys r =
      .ok (r.seasonId.getD 0, r.scoringPeriodId.getD 0,
           r.statSourceId.getD 0, r.statSplitTypeId.getD 0) := by
  obtain ⟨h1, h2, h3, h4⟩ := h
  obtain ⟨a, ha⟩ := Option.isSome_iff_exists.mp h1
  obtain ⟨b, hb⟩ := Option.isSome_iff_exists.mp h2
  obtain ⟨c, hc⟩ := Option.isSome_iff_exists.mp h3
  obtain ⟨d, hd⟩ := Option.isSome_iff_exists.mp h4
  simp [lookupKeys, ha, hb, hc, hd]

lemma lookupKeys_of_not_hasAllKeys (r : StatRecord) (h : ¬ hasAllKeys r) :
    lookupKeys r = .error .keyError := by
  unfold hasAllKeys at h
  unfold lookupKeys
  rcases hs : r.seasonId with _ | a <;>
    rcases hp : r.scoringPeriodId with _ | b <;>
      rcases hc : r.statSourceId with _ | c <;>
        rcases ht : r.statSplitTypeId with _ | d <;>
          simp_all

lemma isTargetRecord_iff (season week : Int) (r : StatRecord)
    (h : hasAllKeys r) :
    isTargetRecord season week r = true ↔
      (r.seasonId.getD 0, r.scoringPeriodId.getD 0,
       r.statSourceId.getD 0, r.statSplitTypeId.getD 0) =
        (season, week, 1, 0) := by
  obtain ⟨h1, h2, h3, h4⟩ := h
  obtain ⟨a, ha⟩ := Option.isSome_iff_exists.mp h1
  obtain ⟨b, hb⟩ := Option.isSome_iff_exists.mp h2
  obtain ⟨c, hc⟩ := Option.isSome_iff_exists.mp h3
  obtain ⟨d, hd⟩ := Option.isSome_iff_exists.mp h4
  simp [isTargetRecord, ha, hb, hc, hd]
  tauto

/-- Core behaviour of `_find_projection` on a list of complete records: it
is exactly the first-match scan `List.find?`. -/
lemma find_projection_eq_find? (season week : Int) (stats : List StatRecord)
    (h : ∀ r ∈ stats, hasAllKeys r) :
    find_projection season week stats =
      .ok (stats.find? (isTargetRecord season week)) := by
  induction stats with
  | nil => rfl
  | cons r rest ih =>
    have hr : hasAllKeys r := h r (List.mem_cons_self r rest)
    have hrest : ∀ x ∈ rest, hasAllKeys x :=
      fun x hx => h x (List.mem_cons_of_mem r hx)
    rw [find_projection, lookupKeys_of_hasAllKeys r hr]
    by_cases htup :
        (r.seasonId.getD 0, r.scoringPeriodId.getD 0,
         r.statSourceId.getD 0, r.statSplitTypeId.getD 0) =
          (season, week, 1, 0)
    · have ht : isTargetRecord season week r = true :=
        (isTargetRecord_iff season week r hr).mpr htup
      simp only [bind, Except.bind, htup]
      simp [ht, pure, Except.pure]
    · have ht : isTargetRecord season week r = false := by
        cases htr : isTargetRecord season week r with
        | false => rfl
        | true => exact absurd ((isTargetRecord_iff season week r hr).mp htr) htup
      simp only [bind, Except.bind]
      simp [htup, ht, ih hrest]

/-- C1: `Parser._find_projection` with target
`(season, week, source 1, split 0)` returns the first record in list order
matching all four key fields, absent when no record matches, and absent on
the empty list. -/
theorem claim_C1 (season week : Int) (stats : List StatRecord)
    (h : ∀ r ∈ stats, hasAllKeys r) :
    find_projection season week stats =
      .ok (stats.find? (isTargetRecord season week)) ∧
    find_projection season week ([] : List StatRecord) = .ok none :=
  ⟨find_projection_eq_find? season week stats h, rfl⟩

/-- A record that is not a projection for (2021, week 1): its source id is
0 (actual result), not 1. -/
def demoRec1 : StatRecord :=
  { seasonId := some 2021, scoringPeriodId := some 1,
    statSourceId := some 0, statSplitTypeId := some 0,
    appliedTotal := some (.num 7), stats := some [] }

/-- A record that does match the (2021, week 1) projection target. -/
def demoRec2 : StatRecord :=
  { seasonId := some 2021, scoringPeriodId := some 1,
    statSourceId := some 1, statSplitTypeId := some 0,
    appliedTotal := some (.num (25/2)),
    stats := some [(.ofString "53", .num 5), (.ofString "58", .num 8)] }

/-- A record missing the `scoringPeriodId` key field. -/
def demoBad : StatRecord :=
  { seasonId := some 2021, statSourceId := some 1,
    statSplitTypeId := some 0 }

theorem claim_C1_witness :
    (∀ r ∈ [demoRec1, demoRec2], hasAllKeys r) ∧
    find_projection 2021 1 [demoRec1, demoRec2] = .ok (some demoRec2) := by
  refine ⟨by decide, ?_⟩
  rw [(claim_C1 2021 1 [demoRec1, demoRec2] (by decide)).1]
  rfl

/-- C10: a record lacking one of the four key fields that occurs before any
matching record makes `_find_projection` raise `KeyError`: it is not
skipped and not treated as a non-match. -/
theorem claim_C10 (season week : Int) (l1 l2 : List StatRecord)
    (r : StatRecord) (hr : ¬ hasAllKeys r)
    (h1 : ∀ x ∈ l1, hasAllKeys x ∧ isTargetRecord season week x = false) :
    find_projection season week (l1 ++ r :: l2) = .error .keyError := by
  induction l1 with
  | nil =>
    rw [List.nil_append, find_projection, lookupKeys_of_not_hasAllKeys r hr]
    rfl
  | cons x xs ih =>
    have hx := h1 x (List.mem_cons_self x xs)
    have hxs : ∀ y ∈ xs, hasAllKeys y ∧ isTargetRecord season week y = false :=
      fun y hy => h1 y (List.mem_cons_of_mem x hy)
    rw [List.cons_append, find_projection, lookupKeys_of_hasAllKeys x hx.1]
    have hne :
        (x.seasonId.getD 0, x.scoringPeriodId.getD 0,
         x.statSourceId.getD 0, x.statSplitTypeId.getD 0) ≠
          (season, week, 1, 0) := by
      intro hcontra
      have := (isTargetRecord_iff season week x hx.1).mpr hcontra
      simp [hx.2] at this
    simp only [bind, Except.bind]
    simp [hne, ih hxs]

lemma dget_some_mem_range [BEq κ] {l : List (κ × α)} {k : κ} {v : α}
    (h : dget l k = some v) : v ∈ l.map (fun kv => kv.2) := by
  unfold dget at h
  cases hf : l.find? (fun kv => kv.1 == k) with
  | none => rw [hf] at h; simp at h
  | some kv =>
    rw [hf] at h
    simp at h
    subst h
    exact List.mem_map_of_mem _ (List.mem_of_find?_eq_some hf)

lemma dictInsert_mem [BEq κ] {l : List (κ × α)} {k : κ} {v : α}
    {kv : κ × α} (h : kv ∈ dictInsert l k v) : kv ∈ l ∨ kv = (k, v) := by
  unfold dictInsert at h
  split at h
  · rcases List.mem_map.mp h with ⟨kv0, hkv0, heq⟩
    by_cases hb : (kv0.1 == k) = true
    · right; rw [← heq]; simp [hb]
    · left; rw [← heq]; simpa [hb] using hkv0
  · rcases List.mem_append.mp h with h1 | h2
    · left; exact h1
    · right; simpa using h2

/-- Provenance of the entries produced by the `_parse_stats` fold: each
output entry was in the accumulator or comes from some input pair with a
known code and a successfully coerced value. -/
lemma parse_stats_fold_sound :
    ∀ (sd : List (StatKey × JVal)) (acc out : List (String × ℚ)),
      List.foldlM parse_stats_step acc sd = Except.ok out →
      ∀ kv ∈ out, kv ∈ acc ∨
        ∃ kv0 ∈ sd, dget STAT_MAP (pyStr kv0.1) = some kv.1 ∧
          pyFloat kv0.2 = Except.ok kv.2 := by
  intro sd
  induction sd with
  | nil =>
    intro acc out h kv hkv
    rw [List.foldlM_nil] at h
    simp only [pure, Except.pure, Except.ok.injEq] at h
    subst h
    exact Or.inl hkv
  | cons x xs ih =>
    intro acc out h kv hkv
    rw [List.foldlM_cons] at h
    unfold parse_stats_step at h
    cases hd : dget STAT_MAP (pyStr x.1) with
    | none =>
      rw [hd] at h
      simp only [bind, Except.bind, pure, Except.pure] at h
      rcases ih acc out h kv hkv with h1 | ⟨kv0, hm, hh⟩
      · exact Or.inl h1
      · exact Or.inr ⟨kv0, List.mem_cons_of_mem x hm, hh⟩
    | some name =>
      rw [hd] at h
      cases hv : pyFloat x.2 with
      | error e => rw [hv] at h; simp [bind, Except.bind] at h
      | ok q =>
        rw [hv] at h
        simp only [bind, Except.bind, pure, Except.pure] at h
        rcases ih (dictInsert acc name q) out h kv hkv with h1 | ⟨kv0, hm, hh⟩
        · rcases dictInsert_mem h1 with hin | heq
          · exact Or.inl hin
          · subst heq
            exact Or.inr ⟨x, List.mem_cons_self x xs, hd, hv⟩
        · exact Or.inr ⟨kv0, List.mem_cons_of_mem x hm, hh⟩

/-- An input whose codes are all unknown leaves the accumulator untouched
(and in particular never raises): the filter guards the coercion. -/
lemma parse_stats_fold_unknown :
    ∀ (sd : List (StatKey × JVal)) (acc : List (String × ℚ)),
      (∀ kv ∈ sd, dget STAT_MAP (pyStr kv.1) = none) →
      List.foldlM parse_stats_step acc sd = Except.ok acc := by
  intro sd
  induction sd with
  | nil => intro acc _; rfl
  | cons x xs ih =>
    intro acc h
    rw [List.foldlM_cons]
    unfold parse_stats_step
    rw [h x (List.mem_cons_self x xs)]
    simp only [bind, Except.bind, pure, Except.pure]
    exact ih acc (fun kv hkv => h kv (List.mem_cons_of_mem x hkv))

/-- C3: `Parser._parse_stats` only emits keys from the Stat Code Table's
range, each value the `float` coercion of a corresponding input value;
unknown codes are silently dropped, and an input with only unknown codes
yields the empty mapping rather than an error. -/
theorem claim_C3 (stat : List (StatKey × JVal)) :
    (∀ out, parse_stats stat = .ok out →
       ∀ kv ∈ out, kv.1 ∈ STAT_MAP.map (fun e => e.2) ∧
         ∃ kv0 ∈ stat, dget STAT_MAP (pyStr kv0.1) = some kv.1 ∧
           pyFloat kv0.2 = .ok kv.2) ∧
    ((∀ kv ∈ stat, dget STAT_MAP (pyStr kv.1) = none) →
       parse_stats stat = .ok []) := by
  constructor
  · intro out h kv hkv
    rcases parse_stats_fold_sound stat [] out h kv hkv with h1 | ⟨kv0, hm, hd, hv⟩
    · simp at h1
    · exact ⟨dget_some_mem_range hd, kv0, hm, hd, hv⟩
  · intro h
    exact parse_stats_fold_unknown stat [] h

/-- A stat map holding only codes absent from the Stat Code Table (one of
them with a non-numeric value). -/
def demoUnknownStats : List (StatKey × JVal) :=
  [(.ofInt 999, .str "x"), (.ofString "abc", .num 3)]

/-- A stat map with one known code (`"53" -> rec_rec`) and one unknown. -/
def demoKnownStats : List (StatKey × JVal) :=
  [(.ofString "53", .num 5), (.ofInt 999, .num 7)]

theorem claim_C3_witness :
    parse_stats demoUnknownStats = .ok [] ∧
    (∀ kv ∈ [("rec_rec", (5 : ℚ))], kv.1 ∈ STAT_MAP.map (fun e => e.2) ∧
       ∃ kv0 ∈ demoKnownStats, dget STAT_MAP (pyStr kv0.1) = some kv.1 ∧
         pyFloat kv0.2 = .ok kv.2) :=
  ⟨(claim_C3 demoUnknownStats).2 (by decide),
   (claim_C3 demoKnownStats).1 [("rec_rec", 5)] rfl⟩

theorem claim_C10_witness :
    ¬ hasAllKeys demoBad ∧
    (∀ x ∈ [demoRec1], hasAllKeys x ∧ isTargetRecord 2021 1 x = false) ∧
    find_projection 2021 1 [demoRec1, demoBad, demoRec2] = .error .keyError :=
  ⟨by decide, by decide,
   claim_C10 2021 1 [demoRec1] [demoRec2] demoBad (by decide) (by decide)⟩

/-- C4 counterexample: `team_id("WSH") = 28`, but the id→code direction
returns `"WSH"`, not the claimed canonical `"WAS"`: in the dict
comprehension `TEAM_ID_MAP = {v: k for k, v in TEAM_MAP.items()}` the later
alias overwrites the earlier one. -/
theorem claim_C4_counterexample :
    espn_team (some "WSH") none = .ok (some (Sum.inl 28)) ∧
    espn_team none (some 28) = .ok (some (Sum.inr "WSH")) ∧
    ¬ espn_team none (some 28) = .ok (some (Sum.inr "WAS")) := by
  refine ⟨rfl, rfl, ?_⟩
  intro h
  simp [show espn_team none (some 28) = .ok (some (Sum.inr "WSH")) from rfl] at h

/-- C4 amended: every non-aliased abbreviation round-trips through
`espn_team` in both directions; `"WSH"` and `"WAS"` both map to id 28, but
the id→code direction returns `"WSH"` (the alias inserted last wins, not
the canonical form); each numeric id has exactly one abbreviation in the
id→code direction. -/
theorem claim_C4_amended :
    (∀ kv ∈ Parser.TEAM_MAP,
       (Parser.TEAM_MAP.filter (fun e => e.2 == kv.2)).length = 1 →
       espn_team (some kv.1) none = .ok (some (Sum.inl kv.2)) ∧
       espn_team none (some kv.2) = .ok (some (Sum.inr kv.1))) ∧
    espn_team (some "KC") none = .ok (some (Sum.inl 12)) ∧
    espn_team none (some 12) = .ok (some (Sum.inr "KC")) ∧
    dget Parser.TEAM_MAP "WSH" = some 28 ∧
    dget Parser.TEAM_MAP "WAS" = some 28 ∧
    espn_team none (some 28) = .ok (some (Sum.inr "WSH")) ∧
    (Parser.TEAM_ID_MAP.map (fun e => e.1)).Nodup := by
  refine ⟨by decide, rfl, rfl, rfl, rfl, rfl, by decide⟩

theorem claim_C4_amended_witness :
    (⟨"KC", (12 : Int)⟩ ∈ Parser.TEAM_MAP ∧
     (Parser.TEAM_MAP.filter (fun e => e.2 == (12 : Int))).length = 1) ∧
    espn_team (some "KC") none = .ok (some (Sum.inl 12)) ∧
    espn_team none (some 12) = .ok (some (Sum.inr "KC")) :=
  ⟨⟨by decide, by decide⟩,
   claim_C4_amended.1 ⟨"KC", 12⟩ (by decide) (by decide)⟩

/-! ## Well-formed response entries and the parse variants -/

/-- The value is numeric (Python `float` succeeds on it). -/
def isNumV : JVal → Bool
  | .num _ => true
  | .str _ => false

/-- A well-formed stat record per the provider response shape: the four key
fields, the applied total and the stat map are present, and every stat
value is numeric. -/
def wfRecord (r : StatRecord) : Prop :=
  hasAllKeys r ∧ r.appliedTotal.isSome ∧ r.stats.isSome ∧
  ∀ kv ∈ r.stats.getD [], isNumV kv.2 = true

instance (r : StatRecord) : Decidable (wfRecord r) := by
  unfold wfRecord; infer_instance

/-- A well-formed player entry: position id and stats list present, every
stat record well formed (`id`/`fullName`/`proTeamId` may be absent — the
code tolerates that). -/
def wfPlayer (p : PlayerEntry) : Prop :=
  p.defaultPositionId.isSome ∧ p.stats.isSome ∧
  ∀ r ∈ p.stats.getD [], wfRecord r

instance (p : PlayerEntry) : Decidable (wfPlayer p) := by
  unfold wfPlayer; infer_instance

/-- No stat record of the player matches the `(season, week, 1, 0)`
target. -/
def noMatchFor (season week : Int) (p : PlayerEntry) : Prop :=
  find_projection season week (p.stats.getD []) = .ok none

/-- The row the claim says the season variant emits when no stat record
matches: identity fields only, the projection-total field explicitly
`None`, no stat-breakdown fields. -/
def seasonIdentityRow (p : PlayerEntry) : FlatRow :=
  { source_player_id := p.id
    source_player_name := p.fullName
    source_team_id := p.proTeamId
    source_team_code := some (teamCodeField p)
    source_player_position :=
      some (p.defaultPositionId.bind (fun pid => dget POSITION_MAP pid))
    source_player_projection := some none
    statFields := [] }

/-- The row the claim says the weekly variant emits when no stat record
matches: as the season row, but the position defaults to `"UNK"`. -/
def weeklyIdentityRow (p : PlayerEntry) : FlatRow :=
  { source_player_id := p.id
    source_player_name := p.fullName
    source_team_id := p.proTeamId
    source_team_code := some (teamCodeField p)
    source_player_position :=
      some (some ((p.defaultPositionId.bind
        (fun pid => dget POSITION_MAP pid)).getD "UNK"))
    source_player_projection := some none
    statFields := [] }

lemma parse_stats_step_unknown (acc : List (String × ℚ)) (kv : StatKey × JVal)
    (hd : dget STAT_MAP (pyStr kv.1) = none) :
    parse_stats_step acc kv = .ok acc := by
  unfold parse_stats_step
  rw [hd]
  rfl

lemma parse_stats_step_known (acc : List (String × ℚ)) (kv : StatKey × JVal)
    (name : String) (q : ℚ) (hd : dget STAT_MAP (pyStr kv.1) = some name)
    (hq : kv.2 = JVal.num q) :
    parse_stats_step acc kv = .ok (dictInsert acc name q) := by
  unfold parse_stats_step
  rw [hd, hq]
  rfl

lemma parse_stats_step_bad (acc : List (String × ℚ)) (kv : StatKey × JVal)
    (name : String) (s : String) (hd : dget STAT_MAP (pyStr kv.1) = some name)
    (hq : kv.2 = JVal.str s) :
    parse_stats_step acc kv = .error .valueError := by
  unfold parse_stats_step
  rw [hd, hq]
  rfl

/-- The fold of `_parse_stats` succeeds on any stat map whose values are
all numeric. -/
lemma parse_stats_fold_total :
    ∀ (sd : List (StatKey × JVal)) (acc : List (String × ℚ)),
      (∀ kv ∈ sd, isNumV kv.2 = true) →
      ∃ out, List.foldlM parse_stats_step acc sd = Except.ok out := by
  intro sd
  induction sd with
  | nil => intro acc _; exact ⟨acc, rfl⟩
  | cons x xs ih =>
    intro acc h
    have hx := h x (List.mem_cons_self x xs)
    have hxs : ∀ kv ∈ xs, isNumV kv.2 = true :=
      fun kv hkv => h kv (List.mem_cons_of_mem x hkv)
    rw [List.foldlM_cons]
    cases hd : dget STAT_MAP (pyStr x.1) with
    | none =>
      obtain ⟨out, hout⟩ := ih acc hxs
      rw [parse_stats_step_unknown acc x hd]
      exact ⟨out, by simp [bind, Except.bind, hout]⟩
    | some name =>
      obtain ⟨q, hq⟩ : ∃ q, x.2 = JVal.num q := by
        cases hv : x.2 with
        | num q => exact ⟨q, rfl⟩
        | str s => rw [hv] at hx; simp [isNumV] at hx
      obtain ⟨out, hout⟩ := ih (dictInsert acc name q) hxs
      rw [parse_stats_step_known acc x name q hd hq]
      exact ⟨out, by simp [bind, Except.bind, hout]⟩

/-- Behaviour of one season-variant loop iteration on a well-formed player
entry: it succeeds, the position comes from `defaultPositionId` with no
`"UNK"` default, and on no match the emitted row is exactly the identity
row with an explicitly null projection. -/
lemma seasonPlayerRow_ok (season week : Int) (p : PlayerEntry)
    (h : wfPlayer p) :
    ∃ r, seasonPlayerRow season week p = .ok r ∧
      r.source_player_position =
        some (p.defaultPositionId.bind (fun pid => dget POSITION_MAP pid)) ∧
      (noMatchFor season week p → r = seasonIdentityRow p) := by
  obtain ⟨hpidS, hstS, hrecs⟩ := h
  obtain ⟨pid, hpid⟩ := Option.isSome_iff_exists.mp hpidS
  obtain ⟨st, hst⟩ := Option.isSome_iff_exists.mp hstS
  rw [hst] at hrecs
  simp only [Option.getD_some] at hrecs
  have hall : ∀ r0 ∈ st, hasAllKeys r0 := fun r0 h0 => (hrecs r0 h0).1
  have hfind := find_projection_eq_find? season week st hall
  cases hf : st.find? (isTargetRecord season week) with
  | none =>
    refine ⟨seasonIdentityRow p, ?_, by simp [seasonIdentityRow, hpid], fun _ => rfl⟩
    rw [hf] at hfind
    simp [seasonPlayerRow, hpid, hst, hfind, bind, Except.bind, pure,
      Except.pure, seasonIdentityRow, baseRow]
  | some stR =>
    rw [hf] at hfind
    have hmem := List.mem_of_find?_eq_some hf
    obtain ⟨_, htotS, hsdS, hnum⟩ := hrecs stR hmem
    obtain ⟨total, htotal⟩ := Option.isSome_iff_exists.mp htotS
    obtain ⟨sd, hsd⟩ := Option.isSome_iff_exists.mp hsdS
    rw [hsd] at hnum
    simp only [Option.getD_some] at hnum
    obtain ⟨out, hout⟩ := parse_stats_fold_total sd [] hnum
    refine ⟨{ source_player_id := p.id
              source_player_name := p.fullName
              source_team_id := p.proTeamId
              source_team_code := some (teamCodeField p)
              source_player_position := some (dget POSITION_MAP pid)
              source_player_projection := some (some total)
              statFields := out }, ?_, by simp [hpid], ?_⟩
    · simp [seasonPlayerRow, hpid, hst, hfind, htotal, hsd, parse_stats,
        hout, bind, Except.bind, pure, Except.pure, baseRow]
    · intro hnm
      exfalso
      unfold noMatchFor at hnm
      rw [hst] at hnm
      simp only [Option.getD_some] at hnm
      rw [hfind] at hnm
      simp at hnm

/-- Behaviour of one weekly-variant loop iteration on a well-formed player
entry: it succeeds, unknown position ids default to `"UNK"`, and on no
match the emitted row is the identity row with an explicitly null
projection. -/
lemma weeklyPlayerRow_ok (season week : Int) (p : PlayerEntry)
    (h : wfPlayer p) :
    ∃ r, weeklyPlayerRow season week p = .ok r ∧
      r.source_player_position =
        some (some ((p.defaultPositionId.bind
          (fun pid => dget POSITION_MAP pid)).getD "UNK")) ∧
      (noMatchFor season week p → r = weeklyIdentityRow p) := by
  obtain ⟨hpidS, hstS, hrecs⟩ := h
  obtain ⟨pid, hpid⟩ := Option.isSome_iff_exists.mp hpidS
  obtain ⟨st, hst⟩ := Option.isSome_iff_exists.mp hstS
  rw [hst] at hrecs
  simp only [Option.getD_some] at hrecs
  have hall : ∀ r0 ∈ st, hasAllKeys r0 := fun r0 h0 => (hrecs r0 h0).1
  have hfind := find_projection_eq_find? season week st hall
  cases hf : st.find? (isTargetRecord season week) with
  | none =>
    refine ⟨weeklyIdentityRow p, ?_, by simp [weeklyIdentityRow, hpid], fun _ => rfl⟩
    rw [hf] at hfind
    simp [weeklyPlayerRow, weeklyStatStep, hpid, hst, hfind, bind,
      Except.bind, pure, Except.pure, weeklyIdentityRow, baseRow]
  | some stR =>
    rw [hf] at hfind
    have hmem := List.mem_of_find?_eq_some hf
    obtain ⟨_, htotS, hsdS, hnum⟩ := hrecs stR hmem
    obtain ⟨total, htotal⟩ := Option.isSome_iff_exists.mp htotS
    obtain ⟨sd, hsd⟩ := Option.isSome_iff_exists.mp hsdS
    rw [hsd] at hnum
    simp only [Option.getD_some] at hnum
    obtain ⟨out, hout⟩ := parse_stats_fold_total sd [] hnum
    refine ⟨{ source_player_id := p.id
              source_player_name := p.fullName
              source_team_id := p.proTeamId
              source_team_code := some (teamCodeField p)
              source_player_position :=
                some (some ((dget POSITION_MAP pid).getD "UNK"))
              source_player_projection := some (some total)
              statFields := out }, ?_, by simp [hpid], ?_⟩
    · simp [weeklyPlayerRow, weeklyStatStep, hpid, hst, hfind, htotal, hsd,
        parse_stats, hout, bind, Except.bind, pure, Except.pure, baseRow]
    · intro hnm
      exfalso
      unfold noMatchFor at hnm
      rw [hst] at hnm
      simp only [Option.getD_some] at hnm
      rw [hfind] at hnm
      simp at hnm

/-- Monadic `mapM` over `Except` succeeds when every element does, producing one
output per input with the pointwise relation recorded. -/
lemma mapM_ok_forall2 {α β : Type} {f : α → Except PyErr β} {l : List α}
    (h : ∀ a ∈ l, ∃ b, f a = Except.ok b) :
    ∃ bl, l.mapM f = Except.ok bl ∧
      List.Forall₂ (fun a b => f a = Except.ok b) l bl := by
  induction l with
  | nil => exact ⟨[], rfl, List.Forall₂.nil⟩
  | cons x xs ih =>
    obtain ⟨b, hb⟩ := h x (List.mem_cons_self x xs)
    obtain ⟨bl, hbl, hf2⟩ := ih (fun a ha => h a (List.mem_cons_of_mem x ha))
    refine ⟨b :: bl, ?_, List.Forall₂.cons hb hf2⟩
    rw [List.mapM_cons, hb, hbl]
    simp [bind, Except.bind, pure, Except.pure]

/-- Relation `Forall₂` can be weakened pointwise with access to membership on the
left. -/
lemma forall2_imp_mem {α β : Type} {R S : α → β → Prop} :
    ∀ {l1 : List α} {l2 : List β}, List.Forall₂ R l1 l2 →
      (∀ a ∈ l1, ∀ b, R a b → S a b) → List.Forall₂ S l1 l2 := by
  intro l1 l2 hf
  induction hf with
  | nil => intro _; exact List.Forall₂.nil
  | cons hab _ ih =>
    intro h
    refine List.Forall₂.cons
      (h _ (List.mem_cons_self _ _) _ hab)
      (ih (fun a ha b hr => h a (List.mem_cons_of_mem _ ha) b hr))

/-- C2: on a well-formed response both parse variants emit exactly one row
per player entry, and for a player with no matching stat record the row is
the identity-only row with `source_player_projection` explicitly null. -/
theorem claim_C2 (season week : Int) (players : List PlayerEntry)
    (h : ∀ p ∈ players, wfPlayer p) :
    ∃ rows wrows,
      projections season week players = .ok rows ∧
      weekly_projections season week players = .ok wrows ∧
      rows.length = players.length ∧
      wrows.length = players.length ∧
      List.Forall₂
        (fun p r => noMatchFor season week p → r = seasonIdentityRow p)
        players rows ∧
      List.Forall₂
        (fun p r => noMatchFor season week p → r = weeklyIdentityRow p)
        players wrows := by
  obtain ⟨rows, hrows, hf2s⟩ :=
    mapM_ok_forall2 (f := seasonPlayerRow season week) (l := players)
      (fun p hp => ⟨_, ((seasonPlayerRow_ok season week p (h p hp)).choose_spec).1⟩)
  obtain ⟨wrows, hwrows, hf2w⟩ :=
    mapM_ok_forall2 (f := weeklyPlayerRow season week) (l := players)
      (fun p hp => ⟨_, ((weeklyPlayerRow_ok season week p (h p hp)).choose_spec).1⟩)
  refine ⟨rows, wrows, hrows, hwrows,
    (List.Forall₂.length_eq hf2s).symm, (List.Forall₂.length_eq hf2w).symm,
    ?_, ?_⟩
  · refine forall2_imp_mem hf2s ?_
    intro p hp r hr hnm
    obtain ⟨r0, hr0, _, himp⟩ := seasonPlayerRow_ok season week p (h p hp)
    rw [hr0] at hr
    injection hr with hr
    rw [← hr]
    exact himp hnm
  · refine forall2_imp_mem hf2w ?_
    intro p hp r hr hnm
    obtain ⟨r0, hr0, _, himp⟩ := weeklyPlayerRow_ok season week p (h p hp)
    rw [hr0] at hr
    injection hr with hr
    rw [← hr]
    exact himp hnm

/-- A well-formed player entry whose single stat record does not match the
(2021, week 1) projection target. -/
def demoPlayerNoMatch : PlayerEntry :=
  { id := some (.num 100), fullName := some (.str "Sample Player"),
    proTeamId := some 25, defaultPositionId := some 3,
    stats := some [demoRec1] }

theorem claim_C2_witness :
    (∀ p ∈ [demoPlayerNoMatch], wfPlayer p) ∧
    ∃ rows wrows,
      projections 2021 1 [demoPlayerNoMatch] = .ok rows ∧
      weekly_projections 2021 1 [demoPlayerNoMatch] = .ok wrows ∧
      rows.length = [demoPlayerNoMatch].length ∧
      wrows.length = [demoPlayerNoMatch].length ∧
      List.Forall₂
        (fun p r => noMatchFor 2021 1 p → r = seasonIdentityRow p)
        [demoPlayerNoMatch] rows ∧
      List.Forall₂
        (fun p r => noMatchFor 2021 1 p → r = weeklyIdentityRow p)
        [demoPlayerNoMatch] wrows :=
  ⟨by decide, claim_C2 2021 1 [demoPlayerNoMatch] (by decide)⟩

/-- C7: on a position id absent from the Position Code Table the weekly
variant emits `"UNK"` without raising, while the season-total variant
derives the position from `defaultPositionId` with no `"UNK"` default, so
the unknown position is `None` — two distinct policies. -/
theorem claim_C7 (season week pid : Int) (p : PlayerEntry)
    (hpid : p.defaultPositionId = some pid)
    (hunk : dget POSITION_MAP pid = none)
    (hwf : wfPlayer p) :
    (∃ r, weeklyPlayerRow season week p = .ok r ∧
       r.source_player_position = some (some "UNK")) ∧
    (∃ r, seasonPlayerRow season week p = .ok r ∧
       r.source_player_position = some none) := by
  constructor
  · obtain ⟨r1, hr1, hpos, _⟩ := weeklyPlayerRow_ok season week p hwf
    rw [hpid] at hpos
    simp only [Option.some_bind, hunk, Option.getD_none] at hpos
    exact ⟨r1, hr1, hpos⟩
  · obtain ⟨r1, hr1, hpos, _⟩ := seasonPlayerRow_ok season week p hwf
    rw [hpid] at hpos
    simp only [Option.some_bind, hunk] at hpos
    exact ⟨r1, hr1, hpos⟩

/-- A well-formed player entry whose position id 7 has no entry in
`POSITION_MAP`. -/
def demoPlayerUnkPos : PlayerEntry :=
  { id := some (.num 5), fullName := some (.str "X"), proTeamId := some 12,
    defaultPositionId := some 7, stats := some [demoRec1] }

theorem claim_C7_witness :
    (demoPlayerUnkPos.defaultPositionId = some 7 ∧
     dget POSITION_MAP (7 : Int) = none ∧ wfPlayer demoPlayerUnkPos) ∧
    (∃ r, weeklyPlayerRow 2021 1 demoPlayerUnkPos = .ok r ∧
       r.source_player_position = some (some "UNK")) ∧
    (∃ r, seasonPlayerRow 2021 1 demoPlayerUnkPos = .ok r ∧
       r.source_player_position = some none) :=
  ⟨⟨rfl, rfl, by decide⟩,
   claim_C7 2021 1 7 demoPlayerUnkPos rfl rfl (by decide)⟩

/-! ## C5: malformed-input behaviour -/

/-- A player entry whose `stats` key is missing entirely. -/
def demoPlayerNoStats : PlayerEntry :=
  { id := some (.num 100), fullName := some (.str "Sample Player"),
    proTeamId := some 25, defaultPositionId := some 3, stats := none }

/-- C5 counterexample: on a player entry missing the `stats` key the weekly
variant does not raise — the `except KeyError` swallows the error and a
partial row (identity fields, no projection key at all) is silently
emitted. -/
theorem claim_C5_counterexample :
    weekly_projections 2021 1 [demoPlayerNoStats] = .ok
      [{ source_player_id := some (.num 100),
         source_player_name := some (.str "Sample Player"),
         source_team_id := some 25,
         source_team_code := some (some "SF"),
         source_player_position := some (some "WR"),
         source_player_projection := none,
         statFields := [] }] ∧
    ¬ ∃ e, weekly_projections 2021 1 [demoPlayerNoStats] = .error e := by
  constructor
  · decide
  · rintro ⟨e, he⟩
    have hok : weekly_projections 2021 1 [demoPlayerNoStats] = .ok
      [{ source_player_id := some (.num 100),
         source_player_name := some (.str "Sample Player"),
         source_team_id := some 25,
         source_team_code := some (some "SF"),
         source_player_position := some (some "WR"),
         source_player_projection := none,
         statFields := [] }] := by decide
    rw [hok] at he
    cases he

/-- Monadic `mapM` on a one-element list is the elementwise call, wrapped. -/
lemma mapM_singleton {α β : Type} (f : α → Except PyErr β) (a : α) :
    [a].mapM f = Except.map (fun b => [b]) (f a) := by
  cases hf : f a with
  | ok b =>
    simp [List.mapM, List.mapM.loop, hf, Except.map, bind, Except.bind,
      pure, Except.pure]
  | error e =>
    simp [List.mapM, List.mapM.loop, hf, Except.map, bind, Except.bind]

/-- The fold of `_parse_stats` raises `ValueError` as soon as the first
entry is a known code with a non-numeric value. -/
lemma parse_stats_fold_bad (k : StatKey) (s : String)
    (rest : List (StatKey × JVal)) (acc : List (String × ℚ))
    (hd : (dget STAT_MAP (pyStr k)).isSome) :
    List.foldlM parse_stats_step acc ((k, JVal.str s) :: rest) =
      .error .valueError := by
  obtain ⟨name, hname⟩ := Option.isSome_iff_exists.mp hd
  rw [List.foldlM_cons, parse_stats_step_bad acc (k, JVal.str s) name s hname rfl]
  rfl

/-- C5 amended: a non-numeric value under a known stat code raises
`ValueError` and aborts both parse variants, and a missing `stats` key
aborts the season variant with `KeyError`; but the weekly variant catches
`KeyError` around the stat lookup and silently emits the identity-only
partial row (projection key absent) instead of aborting. -/
theorem claim_C5_amended (season week : Int) (p : PlayerEntry) (pid : Int)
    (hpid : p.defaultPositionId = some pid) :
    (p.stats = none →
       projections season week [p] = .error .keyError ∧
       weekly_projections season week [p] = .ok
         [{ baseRow p with
             source_team_code := some (teamCodeField p)
             source_player_position :=
               some (some ((dget POSITION_MAP pid).getD "UNK")) }]) ∧
    (∀ st k s rest, p.stats = some [st] →
       lookupKeys st = .ok (season, week, 1, 0) →
       st.appliedTotal.isSome →
       st.stats = some ((k, JVal.str s) :: rest) →
       (dget STAT_MAP (pyStr k)).isSome →
       projections season week [p] = .error .valueError ∧
       weekly_projections season week [p] = .error .valueError) := by
  constructor
  · intro hstats
    constructor
    · have hrow : seasonPlayerRow season week p = .error .keyError := by
        simp [seasonPlayerRow, hpid, hstats, bind, Except.bind, pure,
          Except.pure]
      unfold projections
      rw [mapM_singleton, hrow]
      rfl
    · have hrow : weeklyPlayerRow season week p = .ok
        { baseRow p with
            source_team_code := some (teamCodeField p)
            source_player_position :=
              some (some ((dget POSITION_MAP pid).getD "UNK")) } := by
        simp [weeklyPlayerRow, weeklyStatStep, hpid, hstats, bind,
          Except.bind, pure, Except.pure]
      unfold weekly_projections
      rw [mapM_singleton, hrow]
      rfl
  · intro st k s rest hstats hkeys htot hsd hknown
    obtain ⟨total, htotal⟩ := Option.isSome_iff_exists.mp htot
    have hfind : find_projection season week [st] = .ok (some st) := by
      rw [find_projection, hkeys]
      simp [bind, Except.bind, pure, Except.pure]
    have hparse : parse_stats ((k, JVal.str s) :: rest) = .error .valueError :=
      parse_stats_fold_bad k s rest [] hknown
    constructor
    · have hrow : seasonPlayerRow season week p = .error .valueError := by
        simp [seasonPlayerRow, hpid, hstats, hfind, htotal, hsd, hparse,
          bind, Except.bind, pure, Except.pure]
      unfold projections
      rw [mapM_singleton, hrow]
      rfl
    · have hrow : weeklyPlayerRow season week p = .error .valueError := by
        simp [weeklyPlayerRow, weeklyStatStep, hpid, hstats, hfind, htotal,
          hsd, hparse, bind, Except.bind, pure, Except.pure]
      unfold weekly_projections
      rw [mapM_singleton, hrow]
      rfl

/-- A record matching the (2021, week 1) target whose stat map holds a
non-numeric value under the known code `"53"`. -/
def demoRecBadVal : StatRecord :=
  { seasonId := some 2021, scoringPeriodId := some 1,
    statSourceId := some 1, statSplitTypeId := some 0,
    appliedTotal := some (.num 3),
    stats := some [(.ofString "53", .str "bad")] }

/-- A player entry carrying `demoRecBadVal`. -/
def demoPlayerBadVal : PlayerEntry :=
  { id := some (.num 1), fullName := some (.str "B"), proTeamId := some 12,
    defaultPositionId := some 1, stats := some [demoRecBadVal] }

theorem claim_C5_amended_witness :
    (demoPlayerNoStats.stats = none ∧
     projections 2021 1 [demoPlayerNoStats] = .error .keyError) ∧
    (projections 2021 1 [demoPlayerBadVal] = .error .valueError ∧
     weekly_projections 2021 1 [demoPlayerBadVal] = .error .valueError) :=
  ⟨⟨rfl, ((claim_C5_amended 2021 1 demoPlayerNoStats 3 rfl).1 rfl).1⟩,
   (claim_C5_amended 2021 1 demoPlayerBadVal 1 rfl).2 demoRecBadVal
     (.ofString "53") "bad" [] rfl rfl rfl rfl rfl⟩

/-! ## C6: defense-row name synthesis -/

/-- C6: in both adapters' `standardize_players`, a row whose position is
the `"DST"` sentinel gets the synthesized name `lowercase(team) ++
" defense"` (independent of the provider's raw name), and every other row
gets the external name-canonicalization collaborator applied to its raw
name. -/
theorem claim_C6 (stdName : String → String) (df : List SRow)
    (wdf : List WRow) (i j : ℕ) (hi : i < df.length)
    (hi2 : i < (ESPNProjections.standardize_players stdName df).length)
    (hj : j < wdf.length)
    (hj2 : j < (WatsonProjections.standardize_players stdName wdf).length) :
    ((df.get ⟨i, hi⟩).pos = "DST" →
      (ESPNProjections.standardize_players stdName df).get ⟨i, hi2⟩ =
        strLower (df.get ⟨i, hi⟩).team ++ " defense") ∧
    ((df.get ⟨i, hi⟩).pos ≠ "DST" →
      (ESPNProjections.standardize_players stdName df).get ⟨i, hi2⟩ =
        stdName (df.get ⟨i, hi⟩).plyr) ∧
    ((wdf.get ⟨j, hj⟩).pos = "DST" →
      (WatsonProjections.standardize_players stdName wdf).get ⟨j, hj2⟩ =
        strLower (wdf.get ⟨j, hj⟩).team ++ " defense") ∧
    ((wdf.get ⟨j, hj⟩).pos ≠ "DST" →
      (WatsonProjections.standardize_players stdName wdf).get ⟨j, hj2⟩ =
        stdName (wdf.get ⟨j, hj⟩).plyr) := by
  have he : (ESPNProjections.standardize_players stdName df).get ⟨i, hi2⟩ =
      (if (df.get ⟨i, hi⟩).pos == "DST"
        then strLower (df.get ⟨i, hi⟩).team ++ " defense"
        else stdName (df.get ⟨i, hi⟩).plyr) := by
    unfold ESPNProjections.standardize_players
    simp [List.get_eq_getElem, List.getElem_map]
  have hw : (WatsonProjections.standardize_players stdName wdf).get ⟨j, hj2⟩ =
      (if (wdf.get ⟨j, hj⟩).pos == "DST"
        then strLower (wdf.get ⟨j, hj⟩).team ++ " defense"
        else stdName (wdf.get ⟨j, hj⟩).plyr) := by
    unfold WatsonProjections.standardize_players
    simp [List.get_eq_getElem, List.getElem_map]
  refine ⟨fun hdst => ?_, fun hnot => ?_, fun hdst => ?_, fun hnot => ?_⟩
  · rw [he, if_pos (beq_iff_eq.mpr hdst)]
  · rw [he, if_neg (by simpa using hnot)]
  · rw [hw, if_pos (beq_iff_eq.mpr hdst)]
  · rw [hw, if_neg (by simpa using hnot)]

/-- Two ESPN-shaped rows: a defense row for SF and a regular QB row. -/
def c6Table : List SRow :=
  [{ team := "SF", pos := "DST", plyr := "49ers D/ST" },
   { team := "KC", pos := "QB", plyr := "Patrick Mahomes" }]

/-- One Watson-shaped defense row. -/
def c6WTable : List WRow :=
  [{ team := "SF", opp := "KC", pos := "DST", plyr := "49ers D/ST" }]

theorem claim_C6_witness :
    (ESPNProjections.standardize_players (fun s => s) c6Table).get
        ⟨0, by decide⟩ = "sf defense" ∧
    (ESPNProjections.standardize_players (fun s => s) c6Table).get
        ⟨1, by decide⟩ = "Patrick Mahomes" ∧
    (WatsonProjections.standardize_players (fun s => s) c6WTable).get
        ⟨0, by decide⟩ = "sf defense" := by
  refine ⟨?_, ?_, ?_⟩
  · have h := (claim_C6 (fun s => s) c6Table c6WTable 0 0 (by decide)
      (by decide) (by decide) (by decide)).1 (by decide)
    rw [h]; decide
  · have h := (claim_C6 (fun s => s) c6Table c6WTable 1 0 (by decide)
      (by decide) (by decide) (by decide)).2.1 (by decide)
    rw [h]; decide
  · have h := (claim_C6 (fun s => s) c6Table c6WTable 0 0 (by decide)
      (by decide) (by decide) (by decide)).2.2.1 (by decide)
    rw [h]; decide

/-! ## C9: standardize as a per-row map, and idempotence -/

/-- The effect of `ESPNProjections.standardize` on one row: the three
passes composed rowwise. -/
def ESPNProjections.standardizeRow (stdTeam stdPos stdName : String → String)
    (r : SRow) : SRow :=
  { team := stdTeam (replaceWSH r.team)
    pos := stdPos r.pos
    plyr := if stdPos r.pos == "DST"
      then strLower (stdTeam (replaceWSH r.team)) ++ " defense"
      else stdName r.plyr }

/-- The effect of `WatsonProjections.standardize` on one row. -/
def WatsonProjections.standardizeRow (stdTeam stdPos stdName : String → String)
    (r : WRow) : WRow :=
  { team := stdTeam r.team
    opp := stdTeam r.opp
    pos := stdPos r.pos
    plyr := if stdPos r.pos == "DST"
      then strLower (stdTeam r.team) ++ " defense"
      else stdName r.plyr }

lemma zip_self_map {α β γ : Type} (f : α → β) (g : α × β → γ) :
    ∀ l : List α, (l.zip (l.map f)).map g = l.map (fun a => g (a, f a)) := by
  intro l
  induction l with
  | nil => rfl
  | cons x xs ih => simp [ih]

/-- Method `ESPNProjections.standardize` is a per-row map: the passes are pure
per-row functions independent of row order. -/
lemma espn_standardize_eq_map (f g h : String → String) (df : List SRow) :
    ESPNProjections.standardize f g h df =
      df.map (ESPNProjections.standardizeRow f g h) := by
  simp only [ESPNProjections.standardize, ESPNProjections.standardize_players]
  rw [zip_self_map]
  simp only [List.map_map]
  rfl

/-- Method `WatsonProjections.standardize` is a per-row map. -/
lemma watson_standardize_eq_map (f g h : String → String) (wdf : List WRow) :
    WatsonProjections.standardize f g h wdf =
      wdf.map (WatsonProjections.standardizeRow f g h) := by
  simp only [WatsonProjections.standardize, WatsonProjections.standardize_players]
  rw [zip_self_map]
  simp only [List.map_map]
  rfl

lemma map_eq_self_of {α : Type} {f : α → α} :
    ∀ {l : List α}, (∀ a ∈ l, f a = a) → l.map f = l := by
  intro l
  induction l with
  | nil => intro _; rfl
  | cons x xs ih =>
    intro h
    rw [List.map_cons, h x (List.mem_cons_self x xs),
      ih (fun a ha => h a (List.mem_cons_of_mem x ha))]

lemma espn_standardizeRow_fixed (f g h : String → String) (r : SRow)
    (ht : f (replaceWSH r.team) = r.team) (hp : g r.pos = r.pos)
    (hd : r.pos = "DST" → r.plyr = strLower r.team ++ " defense")
    (hn : r.pos ≠ "DST" → h r.plyr = r.plyr) :
    ESPNProjections.standardizeRow f g h r = r := by
  unfold ESPNProjections.standardizeRow
  cases r with
  | mk team pos plyr =>
    simp only at ht hp hd hn
    rw [ht, hp]
    by_cases hpos : pos = "DST"
    · simp [hpos, hd hpos]
    · simp [hpos, hn hpos]

lemma watson_standardizeRow_fixed (f g h : String → String) (r : WRow)
    (ht : f r.team = r.team) (ho : f r.opp = r.opp) (hp : g r.pos = r.pos)
    (hd : r.pos = "DST" → r.plyr = strLower r.team ++ " defense")
    (hn : r.pos ≠ "DST" → h r.plyr = r.plyr) :
    WatsonProjections.standardizeRow f g h r = r := by
  unfold WatsonProjections.standardizeRow
  cases r with
  | mk team opp pos plyr =>
    simp only at ht ho hp hd hn
    rw [ht, ho, hp]
    by_cases hpos : pos = "DST"
    · simp [hpos, hd hpos]
    · simp [hpos, hn hpos]

/-- A table whose cells are all fixed points of the identity collaborators,
yet `standardize` changes it: the `WSH` pre-aliasing rewrites row 0's team
and the `DST` branch resynthesizes row 1's player name. -/
def c9Table : List SRow :=
  [{ team := "WSH", pos := "QB", plyr := "alice" },
   { team := "SF", pos := "DST", plyr := "bob" }]

/-- C9 counterexample: with the identity collaborators every cell of
`c9Table` is a fixed point of its canonicalization collaborator, but
applying `ESPNProjections.standardize` does not return the table
unchanged. -/
theorem claim_C9_counterexample :
    (∀ r ∈ c9Table, (fun s => s) r.team = r.team ∧
       (fun s => s) r.pos = r.pos ∧ (fun s => s) r.plyr = r.plyr) ∧
    ESPNProjections.standardize (fun s => s) (fun s => s) (fun s => s)
      c9Table ≠ c9Table := by
  constructor
  · intro r _
    exact ⟨rfl, rfl, rfl⟩
  · decide

/-- C9 amended: `standardize` leaves a table unchanged when each row's team
cells are fixed points of the pre-aliasing-then-canonicalization composite
(for Watson, of the team collaborator, `opp` included), the position cells
are fixed points of the position collaborator, each non-`DST` row's name is
a fixed point of the name collaborator, and each `DST` row's name already
equals `lowercase(team) ++ " defense"`; moreover both `standardize`
implementations are per-row maps, so they are independent of row order. -/
theorem claim_C9_amended (stdTeam stdPos stdName : String → String)
    (df : List SRow) (wdf : List WRow)
    (h : ∀ r ∈ df, stdTeam (replaceWSH r.team) = r.team ∧
       stdPos r.pos = r.pos ∧
       (r.pos = "DST" → r.plyr = strLower r.team ++ " defense") ∧
       (r.pos ≠ "DST" → stdName r.plyr = r.plyr))
    (hw : ∀ r ∈ wdf, stdTeam r.team = r.team ∧ stdTeam r.opp = r.opp ∧
       stdPos r.pos = r.pos ∧
       (r.pos = "DST" → r.plyr = strLower r.team ++ " defense") ∧
       (r.pos ≠ "DST" → stdName r.plyr = r.plyr)) :
    ESPNProjections.standardize stdTeam stdPos stdName df = df ∧
    WatsonProjections.standardize stdTeam stdPos stdName wdf = wdf ∧
    (∀ df0 : List SRow,
      ESPNProjections.standardize stdTeam stdPos stdName df0 =
        df0.map (ESPNProjections.standardizeRow stdTeam stdPos stdName)) ∧
    (∀ wdf0 : List WRow,
      WatsonProjections.standardize stdTeam stdPos stdName wdf0 =
        wdf0.map (WatsonProjections.standardizeRow stdTeam stdPos stdName)) := by
  refine ⟨?_, ?_, espn_standardize_eq_map stdTeam stdPos stdName,
    watson_standardize_eq_map stdTeam stdPos stdName⟩
  · rw [espn_standardize_eq_map]
    refine map_eq_self_of ?_
    intro r hr
    obtain ⟨ht, hp, hd, hn⟩ := h r hr
    exact espn_standardizeRow_fixed stdTeam stdPos stdName r ht hp hd hn
  · rw [watson_standardize_eq_map]
    refine map_eq_self_of ?_
    intro r hr
    obtain ⟨ht, ho, hp, hd, hn⟩ := hw r hr
    exact watson_standardizeRow_fixed stdTeam stdPos stdName r ht ho hp hd hn

/-- An ESPN-shaped table satisfying the amended fixed-point hypotheses for
the identity collaborators. -/
def c9Fixed : List SRow :=
  [{ team := "SF", pos := "DST", plyr := "sf defense" },
   { team := "KC", pos := "QB", plyr := "patrick mahomes" }]

/-- A Watson-shaped table satisfying the amended hypotheses. -/
def c9WFixed : List WRow :=
  [{ team := "SF", opp := "KC", pos := "DST", plyr := "sf defense" }]

theorem claim_C9_amended_witness :
    ESPNProjections.standardize (fun s => s) (fun s => s) (fun s => s)
      c9Fixed = c9Fixed ∧
    WatsonProjections.standardize (fun s => s) (fun s => s) (fun s => s)
      c9WFixed = c9WFixed :=
  ⟨(claim_C9_amended (fun s => s) (fun s => s) (fun s => s) c9Fixed c9WFixed
      (by decide) (by decide)).1,
   (claim_C9_amended (fun s => s) (fun s => s) (fun s => s) c9Fixed c9WFixed
      (by decide) (by decide)).2.1⟩

/-! ## C8: process_raw column selection -/

lemma find_col_name {α : Type} (df : DF α) (w : String)
    (col : String × List α) (h : df.find? (fun c => c.1 == w) = some col) :
    col.1 = w := by
  have hp := List.find?_some h
  exact beq_iff_eq.mp hp

lemma map_congr_mem {α β : Type} {f g : α → β} :
    ∀ {l : List α}, (∀ a ∈ l, f a = g a) → l.map f = l.map g := by
  intro l
  induction l with
  | nil => intro _; rfl
  | cons x xs ih =>
    intro h
    rw [List.map_cons, List.map_cons, h x (List.mem_cons_self x xs),
      ih (fun a ha => h a (List.mem_cons_of_mem x ha))]

/-- Selection `df.loc[:, wanted]` succeeds when every wanted label is present,
returning for each label the first column bearing it, in wanted order. -/
lemma df_loc_cols_ok {α : Type} (wanted : List String) (df : DF α)
    (h : ∀ w ∈ wanted, (df.find? (fun c => c.1 == w)).isSome) :
    df_loc_cols wanted df = .ok (wanted.map (fun w =>
      (w, ((df.find? (fun c => c.1 == w)).map (fun c => c.2)).getD []))) := by
  induction wanted with
  | nil => rfl
  | cons w ws ih =>
    obtain ⟨col, hcol⟩ :=
      Option.isSome_iff_exists.mp (h w (List.mem_cons_self w ws))
    have hws := ih (fun w0 hw0 => h w0 (List.mem_cons_of_mem w hw0))
    have hname := find_col_name df w col hcol
    unfold df_loc_cols
    unfold df_loc_cols at hws
    rw [List.mapM_cons, hcol, hws]
    simp only [bind, Except.bind, pure, Except.pure, List.map_cons]
    rw [hcol]
    simp [← hname]

/-- Selection `df.loc[:, wanted]` raises `KeyError` when some wanted label is
absent. -/
lemma df_loc_cols_err {α : Type} (wanted : List String) (df : DF α)
    (h : ∃ w ∈ wanted, df.find? (fun c => c.1 == w) = none) :
    df_loc_cols wanted df = .error .keyError := by
  induction wanted with
  | nil =>
    rcases h with ⟨w, hw, _⟩
    simp at hw
  | cons w ws ih =>
    unfold df_loc_cols
    rw [List.mapM_cons]
    cases hf : df.find? (fun c => c.1 == w) with
    | none => simp [bind, Except.bind]
    | some col =>
      rcases h with ⟨w0, hw0, hnone⟩
      rcases List.mem_cons.mp hw0 with heq | hmem
      · subst heq
        rw [hf] at hnone
        cases hnone
      · have hws := ih ⟨w0, hmem, hnone⟩
        unfold df_loc_cols at hws
        rw [hws]
        simp [bind, Except.bind]

/-- C8: for both adapters, `process_raw` returns exactly the enumerated
wanted columns renamed per the adapter's column-mapping table — everything
else is dropped — and raises `KeyError` whenever a wanted column is absent
(for the Watson adapter, absent from the renamed frame, since it renames
before selecting). -/
theorem claim_C8 {α : Type} (df dfw : DF α) :
    ((∀ w ∈ ESPNProjections.wanted, (df.find? (fun c => c.1 == w)).isSome) →
       ESPNProjections.process_raw df = .ok
         (ESPNProjections.wanted.map (fun w =>
           ((dget ESPNProjections.COLUMN_MAPPING w).getD w,
            ((df.find? (fun c => c.1 == w)).map (fun c => c.2)).getD [])))) ∧
    ((∃ w ∈ ESPNProjections.wanted, df.find? (fun c => c.1 == w) = none) →
       ESPNProjections.process_raw df = .error .keyError) ∧
    ((∀ w ∈ WatsonProjections.wanted,
        ((WatsonProjections.renamedDF dfw).find? (fun c => c.1 == w)).isSome) →
       WatsonProjections.process_raw dfw = .ok
         (WatsonProjections.wanted.map (fun w =>
           (w, (((WatsonProjections.renamedDF dfw).find?
             (fun c => c.1 == w)).map (fun c => c.2)).getD [])))) ∧
    ((∃ w ∈ WatsonProjections.wanted,
        (WatsonProjections.renamedDF dfw).find? (fun c => c.1 == w) = none) →
       WatsonProjections.process_raw dfw = .error .keyError) := by
  refine ⟨fun h => ?_, fun h => ?_, fun h => ?_, fun h => ?_⟩
  · have hsel := df_loc_cols_ok ESPNProjections.wanted df h
    unfold ESPNProjections.process_raw
    rw [hsel]
    simp only [bind, Except.bind, pure, Except.pure, Except.ok.injEq]
    unfold remap_columns
    simp only [List.map_map]
    rw [List.zip_map']
    rfl
  · unfold ESPNProjections.process_raw
    rw [df_loc_cols_err ESPNProjections.wanted df h]
    rfl
  · have hsel := df_loc_cols_ok WatsonProjections.wanted
      (WatsonProjections.renamedDF dfw) h
    unfold WatsonProjections.process_raw
    rw [hsel]
  · unfold WatsonProjections.process_raw
    rw [df_loc_cols_err WatsonProjections.wanted
      (WatsonProjections.renamedDF dfw) h]

/-- A raw ESPN frame: the five wanted columns plus a stat-breakdown column
that must be dropped. -/
def c8DF : DF Int :=
  [("source_player_position", [1]), ("source_player_name", [2]),
   ("source_player_id", [3]), ("source_team_code", [4]),
   ("source_player_projection", [5]), ("rush_yds", [6])]

/-- An ESPN frame missing the `source_player_projection` column. -/
def c8Missing : DF Int := [("source_player_name", [2])]

/-- A raw Watson frame carrying all twelve raw columns. -/
def c8WDF : DF Int :=
  [("EVENT_WEEK", [1]), ("OPPONENT_NAME", [2]), ("EVENT_YEAR", [3]),
   ("FULL_NAME", [4]), ("POSITION", [5]), ("TEAM", [6]),
   ("OUTSIDE_PROJECTION", [7]), ("SCORE_PROJECTION", [8]),
   ("SCORE_DISTRIBUTION", [9]), ("LOW_SCORE", [10]), ("HIGH_SCORE", [11]),
   ("SIMULATION_PROJECTION", [12])]

theorem claim_C8_witness :
    ESPNProjections.process_raw c8DF = .ok
      [("pos", [1]), ("plyr", [2]), ("source_player_id", [3]),
       ("team", [4]), ("proj", [5])] ∧
    ESPNProjections.process_raw c8Missing = .error .keyError ∧
    WatsonProjections.process_raw c8WDF = .ok
      [("week", [1]), ("opp", [2]), ("season", [3]), ("plyr", [4]),
       ("pos", [5]), ("team", [6]), ("outside_projection", [7]),
       ("proj", [8]), ("score_distribution", [9]), ("low_score", [10]),
       ("high_score", [11]), ("simulation_projection", [12])] ∧
    WatsonProjections.process_raw (c8Missing : DF Int) = .error .keyError := by
  refine ⟨?_, ?_, ?_, ?_⟩
  · rw [(claim_C8 c8DF c8WDF).1 (by decide)]
    decide
  · exact (claim_C8 c8Missing c8WDF).2.1 ⟨"source_player_position",
      by decide, by decide⟩
  · rw [(claim_C8 c8DF c8WDF).2.2.1 (by decide)]
    decide
  · exact (claim_C8 c8DF c8Missing).2.2.2 ⟨"week", by decide, by decide⟩

end EspnProjections
